import Mathlib

/-!
A linear (bump) arena allocator: model of `linear.c`.

The C program keeps an `Arena` (a base address, a length and two offsets) over a
caller-supplied byte buffer.  The embedding below follows the source line by line.

* `uintptr_t` and `size_t` are 64-bit words: they are natural numbers and every
  addition and subtraction of the source is taken modulo `2^64` (`wadd`, `wsub`).
* A pointer is an address (a natural number); the null pointer is `0`.
* Memory is a flat map from addresses to bytes.  `memset` and `memmove` write
  where the source tells them to, inside the arena's buffer or beyond it;
  a block access of one or more bytes through the null pointer is a fault.
* `assert` is live: a failed assertion ends the call with `Outcome.assertFail`.
* The model's `memset` also completes when its range runs past the top of the
  address space, which no call on a machine does.  Statements about what a
  returning call leaves behind therefore say where it matters that the bytes the
  call wrote are addresses of the machine (`p + size ≤ 2^64`).
-/

namespace Linear

/-- The number of values of a machine word (`uintptr_t`, `size_t`). -/
abbrev WORD : Nat := 18446744073709551616

/-- Word addition: `x + y` in `size_t` / `uintptr_t` arithmetic. -/
def wadd (x y : Nat) : Nat := (x + y) % WORD

/-- Word subtraction: `x - y` in `size_t` / `uintptr_t` arithmetic. -/
def wsub (x y : Nat) : Nat := (x % WORD + (WORD - y % WORD)) % WORD

/-- Flat byte memory: the byte stored at each address. -/
abbrev Mem : Type := Nat → Nat

/-- The library call `memset(p, c, n)`: `n` bytes from address `p` become `c`.
A call of length zero does nothing; writing through the null pointer faults. -/
def memset (m : Mem) (p c n : Nat) : Option Mem :=
  if n = 0 then some m
  else if p = 0 then none
  else some (fun x => if p ≤ x ∧ x < p + n then c else m x)

/-- The library call `memmove(dst, src, n)`: the `n` bytes that were at `src`
before the call are afterwards at `dst` (overlap-safe).  A call of length zero
does nothing; an access through the null pointer faults. -/
def memmove (m : Mem) (dst src n : Nat) : Option Mem :=
  if n = 0 then some m
  else if dst = 0 ∨ src = 0 then none
  else some (fun x => if dst ≤ x ∧ x < dst + n then m (src + (x - dst)) else m x)

/-- Source `linear.c:13-16`: `(ptr & (ptr-1)) == 0` on a word. -/
def is_power_of_two (ptr : Nat) : Bool :=
  (ptr &&& wsub ptr 1) == 0

/-- Source `linear.c:18-32`.  The result `none` is the failed
`assert(is_power_of_two(a))`. -/
def align_foward (ptr align : Nat) : Option Nat :=
  let a := align
  if is_power_of_two a then
    let modulo := ptr &&& wsub a 1
    if modulo ≠ 0 then some (wadd ptr (wsub a modulo)) else some ptr
  else none

/-- Source `linear.c:34-39`: the arena header.  The field `buffer` is the base
address of the backing buffer. -/
structure Arena where
  buffer : Nat
  buffer_len : Nat
  prev_offset : Nat
  curr_offset : Nat
deriving DecidableEq, Repr

/-- How a call ends: it returns a pointer (`0` is `NULL`) together with the arena
and the memory it leaves behind, or an assertion fails, or a library call is
handed the null pointer. -/
inductive Outcome where
  | ret (p : Nat) (a : Arena) (m : Mem)
  | assertFail
  | fault

/-- The returned pointer, when the call returns. -/
def Outcome.ptr? : Outcome → Option Nat
  | .ret p _ _ => some p
  | _ => none

/-- The arena left behind, when the call returns. -/
def Outcome.arena? : Outcome → Option Arena
  | .ret _ a _ => some a
  | _ => none

/-- The byte left at address `x`, when the call returns. -/
def Outcome.byte? (o : Outcome) (x : Nat) : Option Nat :=
  match o with
  | .ret _ _ m => some (m x)
  | _ => none

/-- Whether the call ended in the failed assertion. -/
def Outcome.isAssertFail : Outcome → Bool
  | .assertFail => true
  | _ => false

/-- Whether the call ended in a null-pointer access. -/
def Outcome.isFault : Outcome → Bool
  | .fault => true
  | _ => false

/-- Source `linear.c:41-57`.  The offsets are stored before the `memset`, as in the
source; `&(a->buffer[rel_offset])` is the address `buffer + rel_offset`. -/
def arena_alloc_align (a : Arena) (m : Mem) (size align : Nat) : Outcome :=
  let curr_ptr := wadd a.buffer a.curr_offset
  match align_foward curr_ptr align with
  | none => .assertFail
  | some aligned =>
    let rel_offset := wsub aligned a.buffer
    if wadd rel_offset size ≤ a.buffer_len then
      let ptr := wadd a.buffer rel_offset
      let a1 : Arena := { a with prev_offset := rel_offset, curr_offset := wadd rel_offset size }
      match memset m ptr 0 size with
      | none => .fault
      | some m1 => .ret ptr a1 m1
    else .ret 0 a m

/-- Source `linear.c:8-10`: `2*sizeof(void*)` on a 64-bit target. -/
def DEFAULT_ALIGHMENT : Nat := 16

/-- Source `linear.c:59-62`. -/
def arena_alloc (a : Arena) (m : Mem) (size : Nat) : Outcome :=
  arena_alloc_align a m size DEFAULT_ALIGHMENT

/-- Source `linear.c:64-101`.  The first `assertFail` is `assert(0 && ...)` for a
pointer outside the buffer, the second the failed `assert(is_power_of_two(align))`.
On the copy path the result of the fresh allocation is handed to `memmove`
without a test, as in the source. -/
def arena_resize_align (a : Arena) (m : Mem) (old_memory old_size new_size align : Nat) :
    Outcome :=
  let old_mem := old_memory
  if is_power_of_two align then
    if old_mem = 0 ∨ old_size = 0 then
      arena_alloc_align a m new_size align
    else if a.buffer ≤ old_mem ∧ old_mem < wadd a.buffer a.buffer_len then
      if wadd a.buffer a.prev_offset = old_mem then
        let new_offset := wadd a.prev_offset new_size
        if new_offset > a.buffer_len then .ret 0 a m
        else
          let a1 : Arena := { a with curr_offset := new_offset }
          if new_size > old_size then
            match memset m (wadd a1.buffer a1.curr_offset) 0 (wsub new_size old_size) with
            | none => .fault
            | some m1 => .ret old_mem a1 m1
          else .ret old_mem a1 m
      else
        match arena_alloc_align a m new_size align with
        | .ret new_mem a1 m1 =>
          let copy_size := if old_size < new_size then old_size else new_size
          match memmove m1 new_mem old_mem copy_size with
          | none => .fault
          | some m2 => .ret new_mem a1 m2
        | .assertFail => .assertFail
        | .fault => .fault
    else .assertFail
  else .assertFail

/-- Source `linear.c:103-106`. -/
def arena_resize (a : Arena) (m : Mem) (old_mem old_size new_size : Nat) : Outcome :=
  arena_resize_align a m old_mem old_size new_size DEFAULT_ALIGHMENT

/-- Source `linear.c:108-112`. -/
def arena_free_all (a : Arena) : Arena :=
  { a with curr_offset := 0, prev_offset := 0 }

/-- Source `linear.c:114-120`. -/
def arena_init (buffer buffer_len : Nat) : Arena :=
  { buffer := buffer, buffer_len := buffer_len, curr_offset := 0, prev_offset := 0 }

/-- The offset invariant of the data model: `0 ≤ prev_offset ≤ curr_offset ≤ buffer_len`. -/
def OffsetInv (a : Arena) : Prop :=
  a.prev_offset ≤ a.curr_offset ∧ a.curr_offset ≤ a.buffer_len

instance (a : Arena) : Decidable (OffsetInv a) := by
  unfold OffsetInv; infer_instance

/-- The buffer is a C object: it is not at the null address and it ends below the
top of the address space, so that its one-past-the-end address is a word. -/
def ValidBuffer (a : Arena) : Prop :=
  0 < a.buffer ∧ a.buffer + a.buffer_len < WORD

instance (a : Arena) : Decidable (ValidBuffer a) := by
  unfold ValidBuffer; infer_instance

/-! ## Concrete arenas used to evaluate the code -/

/-- Memory in which every byte holds 170 (`0xAA`). -/
def memAA : Mem := fun _ => 170

/-- A 64-byte arena at address 4096 whose most recent allocation is the 16 bytes at offset 0. -/
def arenaGrow : Arena :=
  { buffer := 4096, buffer_len := 64, prev_offset := 0, curr_offset := 16 }

/-- A 64-byte arena at address 4096 holding a first allocation at offset 0 and the
most recent one at offset 16, with 16 bytes left. -/
def arenaNearlyFull : Arena :=
  { buffer := 4096, buffer_len := 64, prev_offset := 16, curr_offset := 48 }

/-- A 1024-byte arena at address 4096 of which the first 16 bytes are allocated. -/
def arenaSixteenUsed : Arena :=
  { buffer := 4096, buffer_len := 1024, prev_offset := 0, curr_offset := 16 }

/-- A 1024-byte arena at address 4096 with allocations at offsets 0 and 16. -/
def arenaTwoBlocks : Arena :=
  { buffer := 4096, buffer_len := 1024, prev_offset := 16, curr_offset := 32 }

/-- A 1024-byte arena at the unaligned address 4099 with 5 bytes allocated. -/
def arenaOddBase : Arena :=
  { buffer := 4099, buffer_len := 1024, prev_offset := 0, curr_offset := 5 }

/-- A full 1024-byte arena at address 4096 after `arena_alloc(1024)` and then
`arena_alloc(0)`: the latest (empty) allocation starts at offset 1024, one past the
last byte of the buffer. -/
def arenaAtEnd : Arena :=
  { buffer := 4096, buffer_len := 1024, prev_offset := 1024, curr_offset := 1024 }

/-- A 1024-byte arena at address 4096 filled by one 1024-byte allocation. -/
def arenaFilled : Arena :=
  { buffer := 4096, buffer_len := 1024, prev_offset := 0, curr_offset := 1024 }

/-- The ten bytes of the C string `"123456789"` with its terminator. -/
def digits : List Nat := [49, 50, 51, 52, 53, 54, 55, 56, 57, 0]

/-- The caller writes the bytes `bs` at address `p` (`strcpy_s` in `main`). -/
def storeBytes (m : Mem) (p : Nat) (bs : List Nat) : Mem :=
  fun x => if p ≤ x ∧ x < p + bs.length then bs.getD (x - p) 0 else m x

/-- The arena of `main` (`linear.c:172-175`) after `alloc(10)` and `alloc(1)`. -/
def arenaStale : Arena :=
  { buffer := 4096, buffer_len := 1024, prev_offset := 16, curr_offset := 17 }

/-- The arena after the first `arena_alloc(80)` on a 1024-byte buffer at 4096. -/
def arenaAfter80 : Arena :=
  { buffer := 4096, buffer_len := 1024, prev_offset := 0, curr_offset := 80 }

/-- Memory `memAA` with the 80 bytes from address 4096 zeroed. -/
def memAfter80 : Mem := fun x => if 4096 ≤ x ∧ x < 4096 + 80 then 0 else memAA x

/-- The arena `arenaOddBase` after a 10-byte allocation aligned to 16. -/
def arenaOddAfter : Arena :=
  { buffer := 4099, buffer_len := 1024, prev_offset := 13, curr_offset := 23 }

/-- Memory `memAA` with the 10 bytes from address 4112 zeroed. -/
def memOddAfter : Mem := fun x => if 4112 ≤ x ∧ x < 4112 + 10 then 0 else memAA x

/-- Memory of the last run of `main` before the resize: the string at address 4096. -/
def memString : Mem := storeBytes memAA 4096 digits

/-- The arena of that run after the fresh 8-byte allocation of the resize. -/
def arenaStaleAfter : Arena :=
  { buffer := 4096, buffer_len := 1024, prev_offset := 32, curr_offset := 40 }

/-- Memory `memString` with the 8 bytes from address 4128 zeroed. -/
def memStaleFresh : Mem := fun x => if 4128 ≤ x ∧ x < 4128 + 8 then 0 else memString x

/-- A 1024-byte arena at address 4096 whose latest allocation is the 36 bytes at
offset 64. -/
def arenaBumped : Arena :=
  { buffer := 4096, buffer_len := 1024, prev_offset := 64, curr_offset := 100 }

/-- The arena of `main` (`linear.c:152-153`) after the reset and the first
`arena_alloc(81)`. -/
def arenaFirst81 : Arena :=
  { buffer := 4096, buffer_len := 1024, prev_offset := 0, curr_offset := 81 }

/-- Memory `memAA` with the 81 bytes from address 4096 zeroed. -/
def memFirst81 : Mem := fun x => if 4096 ≤ x ∧ x < 4096 + 81 then 0 else memAA x

/-- The arena of `main` (`linear.c:154`) after the second `arena_alloc(81)`. -/
def arenaSecond81 : Arena :=
  { buffer := 4096, buffer_len := 1024, prev_offset := 96, curr_offset := 177 }

/-- Memory `memFirst81` with the 81 bytes from address 4192 zeroed. -/
def memSecond81 : Mem := fun x => if 4192 ≤ x ∧ x < 4192 + 81 then 0 else memFirst81 x

/-- Run a second call on the pointer, arena and memory the first call returned. -/
def Outcome.andThen (o : Outcome) (f : Nat → Arena → Mem → Outcome) : Outcome :=
  match o with
  | .ret p a m => f p a m
  | .assertFail => .assertFail
  | .fault => .fault

/-- The last run of `main` (`linear.c:171-176`): `alloc(10)`, the string is
written into it, `alloc(1)`, then the first allocation is resized from 10 to 8. -/
def staleResizeRun : Outcome :=
  (arena_alloc (arena_init 4096 1024) memAA 10).andThen
    (fun a11 a m => (arena_alloc a (storeBytes m a11 digits) 1).andThen
      (fun _ a2 m2 => arena_resize a2 m2 a11 10 8))

/-! ## Word arithmetic and alignment -/

theorem two_pow_lt_word (k : Nat) (hk : k < 64) : 2 ^ k < WORD := by
  have h : (2 : Nat) ^ k < 2 ^ 64 := Nat.pow_lt_pow_right (by norm_num) hk
  simpa [WORD] using h

theorem two_pow_dvd_word (k : Nat) (hk : k < 64) : 2 ^ k ∣ WORD := by
  have h : (2 : Nat) ^ k ∣ 2 ^ 64 := Nat.pow_dvd_pow 2 (by omega)
  simpa [WORD] using h

theorem wsub_pow_one (k : Nat) (hk : k < 64) : wsub (2 ^ k) 1 = 2 ^ k - 1 := by
  have h1 := two_pow_lt_word k hk
  have h2 : 0 < 2 ^ k := Nat.pow_pos (by norm_num)
  simp only [wsub, WORD] at *
  omega

theorem is_power_of_two_pow (k : Nat) (hk : k < 64) : is_power_of_two (2 ^ k) = true := by
  simp [is_power_of_two, wsub_pow_one k hk, Nat.and_pow_two_sub_one_eq_mod]

/-- The value `align_foward` computes for a power-of-two alignment, in terms of `%`. -/
theorem align_foward_pow (x k : Nat) (hk : k < 64) :
    align_foward x (2 ^ k) =
      some (if x % 2 ^ k = 0 then x else wadd x (wsub (2 ^ k) (x % 2 ^ k))) := by
  simp only [align_foward, is_power_of_two_pow k hk, wsub_pow_one k hk,
    Nat.and_pow_two_sub_one_eq_mod, if_true]
  by_cases h : x % 2 ^ k = 0 <;> simp [h]

/-- For a power-of-two alignment `align_foward` returns a word that is a multiple of
the alignment; it is the first multiple at or after `x`, unless that multiple is
`2^64` and the rounding wrapped to `0`. -/
theorem align_foward_spec (x k : Nat) (hk : k < 64) (hx : x < WORD) :
    ∃ al, align_foward x (2 ^ k) = some al ∧ al < WORD ∧ al % 2 ^ k = 0 ∧
      ((al = 0 ∧ WORD < x + 2 ^ k) ∨ (x ≤ al ∧ al < x + 2 ^ k)) := by
  have hA := two_pow_lt_word k hk
  have hpos : 0 < 2 ^ k := Nat.pow_pos (by norm_num)
  have hmod : x % 2 ^ k < 2 ^ k := Nat.mod_lt _ hpos
  rw [align_foward_pow x k hk]
  by_cases h : x % 2 ^ k = 0
  · refine ⟨x, by simp [h], hx, h, Or.inr ⟨le_refl _, by omega⟩⟩
  · have hws : wsub (2 ^ k) (x % 2 ^ k) = 2 ^ k - x % 2 ^ k := by
      simp only [wsub, WORD] at *
      omega
    have hdvd : 2 ^ k ∣ x + (2 ^ k - x % 2 ^ k) := by
      have hd := Nat.div_add_mod x (2 ^ k)
      refine ⟨x / 2 ^ k + 1, ?_⟩
      rw [Nat.mul_add, Nat.mul_one]
      omega
    refine ⟨wadd x (2 ^ k - x % 2 ^ k), by simp [h, hws], ?_, ?_, ?_⟩
    · exact Nat.mod_lt _ (by norm_num [WORD])
    · have hd2 : 2 ^ k ∣ wadd x (2 ^ k - x % 2 ^ k) :=
        (Nat.dvd_mod_iff (two_pow_dvd_word k hk)).2 hdvd
      exact Nat.mod_eq_zero_of_dvd hd2
    · by_cases hw : x + (2 ^ k - x % 2 ^ k) < WORD
      · right
        rw [wadd, Nat.mod_eq_of_lt hw]
        omega
      · left
        have hd3 : 2 ^ k ∣ x + (2 ^ k - x % 2 ^ k) - WORD :=
          Nat.dvd_sub' hdvd (two_pow_dvd_word k hk)
        have hz : x + (2 ^ k - x % 2 ^ k) - WORD = 0 :=
          Nat.eq_zero_of_dvd_of_lt hd3 (by simp only [WORD] at *; omega)
        simp only [wadd, WORD] at *
        omega

theorem wadd_wsub_cancel (b al : Nat) (h : al < WORD) : wadd b (wsub al b) = al := by
  simp only [wadd, wsub, WORD] at *
  omega

/-! ## What a returning `arena_alloc_align` did -/

/-- With a power-of-two alignment `arena_alloc_align` passes the assertion and then
either takes the success branch at the aligned address `al` or returns `NULL`. -/
theorem alloc_pow_cases (a : Arena) (m : Mem) (size k : Nat) (hk : k < 64) :
    ∃ al, al < WORD ∧ al % 2 ^ k = 0 ∧
      ((al = 0 ∧ WORD < wadd a.buffer a.curr_offset + 2 ^ k) ∨
        (wadd a.buffer a.curr_offset ≤ al ∧ al < wadd a.buffer a.curr_offset + 2 ^ k)) ∧
      arena_alloc_align a m size (2 ^ k) =
        (if wadd (wsub al a.buffer) size ≤ a.buffer_len then
          match memset m al 0 size with
          | none => Outcome.fault
          | some m1 => Outcome.ret al
              { a with prev_offset := wsub al a.buffer,
                       curr_offset := wadd (wsub al a.buffer) size } m1
        else Outcome.ret 0 a m) := by
  have hx : wadd a.buffer a.curr_offset < WORD := Nat.mod_lt _ (by norm_num [WORD])
  obtain ⟨al, hal, hlt, hmod, hrange⟩ := align_foward_spec (wadd a.buffer a.curr_offset) k hk hx
  refine ⟨al, hlt, hmod, hrange, ?_⟩
  simp only [arena_alloc_align, hal, wadd_wsub_cancel a.buffer al hlt]

/-- Inversion of a successful allocation: the returned non-null pointer is the
aligned address, the bounds check passed, and the new arena and memory are the
ones the success branch builds. -/
theorem alloc_ret_inv (a : Arena) (m : Mem) (size k p : Nat) (a1 : Arena) (m1 : Mem)
    (hk : k < 64) (h : arena_alloc_align a m size (2 ^ k) = Outcome.ret p a1 m1) (hp : p ≠ 0) :
    p < WORD ∧ p % 2 ^ k = 0 ∧
      wadd a.buffer a.curr_offset ≤ p ∧ p < wadd a.buffer a.curr_offset + 2 ^ k ∧
      wadd (wsub p a.buffer) size ≤ a.buffer_len ∧
      a1 = { a with prev_offset := wsub p a.buffer,
                    curr_offset := wadd (wsub p a.buffer) size } ∧
      memset m p 0 size = some m1 := by
  obtain ⟨al, hlt, hmod, hrange, heq⟩ := alloc_pow_cases a m size k hk
  rw [heq] at h
  split at h
  · rename_i hfit
    cases hms : memset m al 0 size with
    | none => simp [hms] at h
    | some m2 =>
      simp only [hms, Outcome.ret.injEq] at h
      obtain ⟨h1, h2, h3⟩ := h
      subst h1
      rcases hrange with ⟨h0, -⟩ | ⟨hlo, hhi⟩
      · exact absurd h0 hp
      · exact ⟨hlt, hmod, hlo, hhi, hfit, h2.symm, by rw [hms, h3]⟩
  · simp only [Outcome.ret.injEq] at h
    exact absurd h.1.symm hp

/-- Over a valid buffer and under the offset invariant, a successful allocation
starts at the first aligned address at or after the bump pointer, as exact
integers, and the offsets it stores are those of that address. -/
theorem alloc_ret_exact (a : Arena) (m : Mem) (size k p : Nat) (a1 : Arena) (m1 : Mem)
    (hk : k < 64) (hv : ValidBuffer a) (hinv : OffsetInv a)
    (h : arena_alloc_align a m size (2 ^ k) = Outcome.ret p a1 m1) (hp : p ≠ 0) :
    a.buffer + a.curr_offset ≤ p ∧ p < a.buffer + a.curr_offset + 2 ^ k ∧
      a1.prev_offset = p - a.buffer ∧ a1.curr_offset = (p - a.buffer + size) % WORD ∧
      a1.curr_offset ≤ a.buffer_len ∧ a1.buffer = a.buffer ∧ a1.buffer_len = a.buffer_len := by
  obtain ⟨hb, hend⟩ := hv
  obtain ⟨hpc, hcl⟩ := hinv
  obtain ⟨hlt, -, hlo, hhi, hfit, ha1, -⟩ := alloc_ret_inv a m size k p a1 m1 hk h hp
  have hcur : wadd a.buffer a.curr_offset = a.buffer + a.curr_offset := by
    simp only [wadd, WORD] at *
    omega
  rw [hcur] at hlo hhi
  have hrel : wsub p a.buffer = p - a.buffer := by
    simp only [wsub, WORD] at *
    omega
  rw [hrel] at ha1 hfit
  subst ha1
  exact ⟨hlo, hhi, rfl, rfl, hfit, rfl, rfl⟩

/-- When `curr_offset + align + size` is a word, nothing wraps: a successful
allocation lies inside the buffer and the offset invariant is kept. -/
theorem alloc_contained_of_no_wrap (a : Arena) (m : Mem) (size k p : Nat) (a1 : Arena)
    (m1 : Mem) (hk : k < 64) (hv : ValidBuffer a) (hinv : OffsetInv a)
    (hnw : a.curr_offset + 2 ^ k + size ≤ WORD)
    (h : arena_alloc_align a m size (2 ^ k) = Outcome.ret p a1 m1) (hp : p ≠ 0) :
    a.buffer ≤ p ∧ p + size ≤ a.buffer + a.buffer_len ∧ OffsetInv a1 := by
  obtain ⟨hlo, hhi, hprev, hcurr, hle, -, hlen⟩ :=
    alloc_ret_exact a m size k p a1 m1 hk hv hinv h hp
  have hsum : (p - a.buffer + size) % WORD = p - a.buffer + size := by
    simp only [WORD] at *
    omega
  rw [hsum] at hcurr
  refine ⟨by omega, by omega, ?_⟩
  unfold OffsetInv
  omega

/-- When `curr_offset + align + size` is a word, a request for more bytes than
remain returns `NULL` and changes neither the arena nor memory. -/
theorem alloc_exhausted_of_no_wrap (a : Arena) (m : Mem) (size k : Nat) (hk : k < 64)
    (hv : ValidBuffer a) (hinv : OffsetInv a)
    (hnw : a.curr_offset + 2 ^ k + size ≤ WORD)
    (hbig : a.buffer_len - a.curr_offset < size) :
    arena_alloc_align a m size (2 ^ k) = Outcome.ret 0 a m := by
  obtain ⟨hb, hend⟩ := hv
  obtain ⟨hpc, hcl⟩ := hinv
  obtain ⟨al, hlt, -, hrange, heq⟩ := alloc_pow_cases a m size k hk
  have hcur : wadd a.buffer a.curr_offset = a.buffer + a.curr_offset := by
    simp only [wadd, WORD] at *
    omega
  rw [hcur] at hrange
  have hno : ¬ (wadd (wsub al a.buffer) size ≤ a.buffer_len) := by
    simp only [wadd, wsub, WORD] at *
    omega
  rw [heq, if_neg hno]

theorem memset_some_spec (m : Mem) (p c n : Nat) (m1 : Mem) (h : memset m p c n = some m1) :
    ∀ x, m1 x = if p ≤ x ∧ x < p + n then c else m x := by
  intro x
  unfold memset at h
  split at h
  · rename_i hn
    simp only [Option.some.injEq] at h
    subst h
    subst hn
    have hno : ¬ (p ≤ x ∧ x < p + 0) := by omega
    rw [if_neg hno]
  · split at h
    · simp at h
    · simp only [Option.some.injEq] at h
      subst h
      rfl

theorem memmove_some_spec (m : Mem) (dst src n : Nat) (m1 : Mem)
    (h : memmove m dst src n = some m1) :
    ∀ x, m1 x = if dst ≤ x ∧ x < dst + n then m (src + (x - dst)) else m x := by
  intro x
  unfold memmove at h
  split at h
  · rename_i hn
    simp only [Option.some.injEq] at h
    subst h
    subst hn
    have hno : ¬ (dst ≤ x ∧ x < dst + 0) := by omega
    rw [if_neg hno]
  · split at h
    · simp at h
    · simp only [Option.some.injEq] at h
      subst h
      rfl

theorem memset_of_ne_null (m : Mem) (p c n : Nat) (hp : p ≠ 0) :
    ∃ m1, memset m p c n = some m1 := by
  unfold memset
  by_cases hn : n = 0
  · exact ⟨m, by simp [hn]⟩
  · exact ⟨fun x => if p ≤ x ∧ x < p + n then c else m x, by simp [hn, hp]⟩

theorem memmove_of_ne_null (m : Mem) (dst src n : Nat) (hd : dst ≠ 0) (hs : src ≠ 0) :
    ∃ m1, memmove m dst src n = some m1 := by
  unfold memmove
  by_cases hn : n = 0
  · exact ⟨m, by simp [hn]⟩
  · exact ⟨fun x => if dst ≤ x ∧ x < dst + n then m (src + (x - dst)) else m x,
      by simp [hn, hd, hs]⟩

/-! ## The in-place branch of `arena_resize_align` -/

/-- The in-place branch of `arena_resize_align` (`linear.c:75-87`): for a non-null
`old_ptr = buffer + prev_offset` strictly inside a valid buffer and `old_size > 0`,
the call is decided by the size check on `prev_offset + new_size` alone. -/
theorem resize_inplace_branch (a : Arena) (m : Mem) (old_size new_size k : Nat) (hk : k < 64)
    (hv : ValidBuffer a) (hin : a.prev_offset < a.buffer_len) (hold : 0 < old_size) :
    arena_resize_align a m (a.buffer + a.prev_offset) old_size new_size (2 ^ k) =
      (if wadd a.prev_offset new_size > a.buffer_len then Outcome.ret 0 a m
       else if new_size > old_size then
         match memset m (wadd a.buffer (wadd a.prev_offset new_size)) 0
             (wsub new_size old_size) with
         | none => Outcome.fault
         | some m1 => Outcome.ret (a.buffer + a.prev_offset)
             { a with curr_offset := wadd a.prev_offset new_size } m1
       else Outcome.ret (a.buffer + a.prev_offset)
             { a with curr_offset := wadd a.prev_offset new_size } m) := by
  obtain ⟨hb, hend⟩ := hv
  have h1 : ¬ (a.buffer + a.prev_offset = 0 ∨ old_size = 0) := by omega
  have h2 : wadd a.buffer a.buffer_len = a.buffer + a.buffer_len := by
    simp only [wadd, WORD] at *
    omega
  have h3 : a.buffer ≤ a.buffer + a.prev_offset ∧
      a.buffer + a.prev_offset < wadd a.buffer a.buffer_len := by
    rw [h2]
    omega
  have h4 : wadd a.buffer a.prev_offset = a.buffer + a.prev_offset := by
    simp only [wadd, WORD] at *
    omega
  simp only [arena_resize_align, is_power_of_two_pow k hk, if_true, h1, if_false, h3, h4,
    and_self]

/-! ## The claims -/

/-- C1 (evaluation of the code): in-place growth from 16 to 32 bytes of the latest
allocation at offset 0 of a 64-byte arena filled with `0xAA`.  The call returns the
old pointer and sets `curr_offset` to 32, but the 16 bytes it zeroes are those at
offsets 32..47, after the new end: the newly added bytes at offsets 16..31 keep
`0xAA`, and bytes beyond `prev_offset + new_size` are overwritten. -/
theorem C1_inplace_growth_zeroes_past_new_end :
    (arena_resize_align arenaGrow memAA 4096 16 32 16).ptr? = some 4096 ∧
    (arena_resize_align arenaGrow memAA 4096 16 32 16).arena? =
      some { buffer := 4096, buffer_len := 64, prev_offset := 0, curr_offset := 32 } ∧
    (∀ x, (arena_resize_align arenaGrow memAA 4096 16 32 16).byte? x =
      some (if 4096 + 32 ≤ x ∧ x < 4096 + 48 then 0 else 170)) ∧
    (arena_resize_align arenaGrow memAA 4096 16 32 16).byte? (4096 + 16) = some 170 ∧
    (arena_resize_align arenaGrow memAA 4096 16 32 16).byte? (4096 + 32) = some 0 := by
  refine ⟨by decide, by decide, ?_, by decide, by decide⟩
  intro x
  rfl

/-- C2 (evaluation of the code): resizing the stale first allocation of a nearly
full 64-byte arena.  The fresh `arena_alloc_align(32, 16)` does not fit and returns
`NULL` with the arena unchanged, and `arena_resize_align` then calls
`memmove(NULL, old_ptr, 16)`: the call ends in a null-pointer write instead of
returning the failure result. -/
theorem C2_copy_path_failure_moves_to_null :
    (arena_alloc_align arenaNearlyFull memAA 32 16).ptr? = some 0 ∧
    (arena_alloc_align arenaNearlyFull memAA 32 16).arena? = some arenaNearlyFull ∧
    arena_resize_align arenaNearlyFull memAA 4096 16 32 16 = Outcome.fault := by
  refine ⟨by decide, by decide, ?_⟩
  rfl

/-- C3 (evaluation of the code): with 1008 bytes left, a request of `2^64 - 16`
bytes passes the bounds check because `rel_offset + size` wraps to 0; the call
returns the non-null address at offset 16 and sets `prev_offset = 16`,
`curr_offset = 0`. -/
theorem C3_exhaustion_check_wraps :
    OffsetInv arenaSixteenUsed ∧
    arenaSixteenUsed.buffer_len - arenaSixteenUsed.curr_offset < 18446744073709551600 ∧
    18446744073709551600 < WORD ∧
    (arena_alloc_align arenaSixteenUsed memAA 18446744073709551600 16).ptr? = some 4112 ∧
    (arena_alloc_align arenaSixteenUsed memAA 18446744073709551600 16).arena? =
      some { buffer := 4096, buffer_len := 1024, prev_offset := 16, curr_offset := 0 } := by
  decide

/-- C4: for every arena over a valid buffer that satisfies the offset invariant,
every size and every power-of-two alignment, whenever `arena_alloc_align` returns
a non-null pointer `p`, having zero-filled `size` bytes that are addresses of the
machine (`p + size ≤ 2^64`, as in every call that returns), the region lies in
the buffer as exact integers: `buffer ≤ p` and `p + size ≤ buffer + buffer_len`. -/
theorem C4_alloc_region_contained (a : Arena) (m : Mem) (size k p : Nat) (a1 : Arena)
    (m1 : Mem) (hk : k < 64) (hv : ValidBuffer a) (hinv : OffsetInv a)
    (h : arena_alloc_align a m size (2 ^ k) = Outcome.ret p a1 m1) (hp : p ≠ 0)
    (haddr : p + size ≤ WORD) :
    a.buffer ≤ p ∧ p + size ≤ a.buffer + a.buffer_len := by
  obtain ⟨hlo, -, -, hcurr, hle, -, -⟩ :=
    alloc_ret_exact a m size k p a1 m1 hk hv hinv h hp
  have hb := hv.1
  have hsum : (p - a.buffer + size) % WORD = p - a.buffer + size := by
    simp only [WORD] at *
    omega
  rw [hsum] at hcurr
  omega

/-- Witness for C4: from the unaligned base 4099 with 5 bytes in use, the 10-byte
allocation aligned to 16 returns 4112, and the 10 bytes from 4112 lie in the
buffer `[4099, 5123)`. -/
theorem C4_alloc_region_contained_witness :
    arena_alloc_align arenaOddBase memAA 10 (2 ^ 4) = Outcome.ret 4112 arenaOddAfter memOddAfter ∧
    arenaOddBase.buffer ≤ 4112 ∧ 4112 + 10 ≤ arenaOddBase.buffer + arenaOddBase.buffer_len :=
  ⟨rfl, C4_alloc_region_contained arenaOddBase memAA 10 4 4112 arenaOddAfter memOddAfter
    (by decide) (by decide) (by decide) rfl (by decide) (by decide)⟩

/-- C5 (evaluation of the code): from an arena that satisfies the offset invariant,
an allocation of `2^64 - 32` bytes returns with `prev_offset = 32 > curr_offset = 0`,
and an in-place resize of the latest allocation to `2^64 - 8` bytes returns with
`prev_offset = 16 > curr_offset = 8`: both calls return and break the invariant. -/
theorem C5_offset_invariant_broken_by_wrap :
    OffsetInv arenaTwoBlocks ∧
    (arena_alloc_align arenaTwoBlocks memAA 18446744073709551584 16).arena? =
      some { buffer := 4096, buffer_len := 1024, prev_offset := 32, curr_offset := 0 } ∧
    ¬ OffsetInv { buffer := 4096, buffer_len := 1024, prev_offset := 32, curr_offset := 0 } ∧
    (arena_resize_align arenaTwoBlocks memAA 4112 16 18446744073709551608 16).arena? =
      some { buffer := 4096, buffer_len := 1024, prev_offset := 16, curr_offset := 8 } ∧
    ¬ OffsetInv { buffer := 4096, buffer_len := 1024, prev_offset := 16, curr_offset := 8 } := by
  decide

/-- C6: for every arena state (any base address), every size and every power-of-two
alignment `2^k` that is a machine word, every pointer that `arena_alloc_align`
returns is a multiple of the alignment. -/
theorem C6_alloc_address_aligned (a : Arena) (m : Mem) (size k p : Nat) (a1 : Arena) (m1 : Mem)
    (hk : k < 64) (h : arena_alloc_align a m size (2 ^ k) = Outcome.ret p a1 m1)
    (hp : p ≠ 0) : p % 2 ^ k = 0 :=
  (alloc_ret_inv a m size k p a1 m1 hk h hp).2.1

/-- Witness for C6: from the unaligned base 4099 with 5 bytes in use, a 10-byte
allocation aligned to `2^4` returns 4112, a multiple of 16. -/
theorem C6_alloc_address_aligned_witness :
    arena_alloc_align arenaOddBase memAA 10 (2 ^ 4) = Outcome.ret 4112 arenaOddAfter memOddAfter ∧
    4112 ≠ 0 ∧ 4112 % 2 ^ 4 = 0 :=
  ⟨rfl, by decide,
    C6_alloc_address_aligned arenaOddBase memAA 10 4 4112 arenaOddAfter memOddAfter
      (by decide) rfl (by decide)⟩

/-- C7: when `arena_alloc_align(size, 2^k)` returns a non-null pointer `p`, there is
an offset `r` (a word) with `p = buffer + r` in pointer arithmetic such that after
the call every byte of the `size` bytes from `p` is zero, every other byte of memory
has its previous value, `buffer` and `buffer_len` are unchanged, `prev_offset = r`
and `curr_offset = r + size` as the `size_t` sum the source assigns (the exact sum
whenever `r + size` is a word). -/
theorem C7_alloc_zero_fill_and_frame (a : Arena) (m : Mem) (size k p : Nat) (a1 : Arena)
    (m1 : Mem) (hk : k < 64)
    (h : arena_alloc_align a m size (2 ^ k) = Outcome.ret p a1 m1) (hp : p ≠ 0) :
    ∃ r, r < WORD ∧ p = wadd a.buffer r ∧
      (∀ x, p ≤ x → x < p + size → m1 x = 0) ∧
      (∀ x, ¬ (p ≤ x ∧ x < p + size) → m1 x = m x) ∧
      a1.buffer = a.buffer ∧ a1.buffer_len = a.buffer_len ∧
      a1.prev_offset = r ∧ a1.curr_offset = (r + size) % WORD ∧
      (r + size < WORD → a1.curr_offset = r + size) := by
  obtain ⟨hlt, -, -, -, -, ha1, hms⟩ := alloc_ret_inv a m size k p a1 m1 hk h hp
  have hbytes := memset_some_spec m p 0 size m1 hms
  refine ⟨wsub p a.buffer, Nat.mod_lt _ (by norm_num [WORD]),
    (wadd_wsub_cancel a.buffer p hlt).symm, ?_, ?_, ?_, ?_, ?_, ?_, ?_⟩
  · intro x h1 h2
    rw [hbytes x, if_pos ⟨h1, h2⟩]
  · intro x hx
    rw [hbytes x, if_neg hx]
  · rw [ha1]
  · rw [ha1]
  · rw [ha1]
  · rw [ha1]
    rfl
  · intro hsum
    rw [ha1]
    exact Nat.mod_eq_of_lt hsum

/-- Witness for C7: the first 80-byte allocation of a 1024-byte arena at address
4096 returns offset 0, and the theorem applies to it. -/
theorem C7_alloc_zero_fill_and_frame_witness :
    arena_alloc_align (arena_init 4096 1024) memAA 80 (2 ^ 4) =
      Outcome.ret 4096 arenaAfter80 memAfter80 ∧
    ∃ r, r < WORD ∧ 4096 = wadd (arena_init 4096 1024).buffer r ∧
      (∀ x, 4096 ≤ x → x < 4096 + 80 → memAfter80 x = 0) ∧
      (∀ x, ¬ (4096 ≤ x ∧ x < 4096 + 80) → memAfter80 x = memAA x) ∧
      arenaAfter80.buffer = (arena_init 4096 1024).buffer ∧
      arenaAfter80.buffer_len = (arena_init 4096 1024).buffer_len ∧
      arenaAfter80.prev_offset = r ∧ arenaAfter80.curr_offset = (r + 80) % WORD ∧
      (r + 80 < WORD → arenaAfter80.curr_offset = r + 80) :=
  ⟨rfl, C7_alloc_zero_fill_and_frame (arena_init 4096 1024) memAA 80 4 4096
    arenaAfter80 memAfter80 (by decide) rfl (by decide)⟩

/-- C8 (counterexample to the claim as stated): the arena reached by
`arena_alloc(1024)` and `arena_alloc(0)` on a 1024-byte buffer satisfies the offset
invariant and has a non-empty buffer, `old_ptr = buffer + prev_offset = 5120`,
`old_size = 1 > 0` and `prev_offset + new_size = 1024 ≤ buffer_len` for
`new_size = 0`; yet the call does not return `old_ptr`: the pointer is one past
the last byte of the buffer, the range test rejects it and the call ends in
`assert(0)`. -/
theorem C8_one_past_end_counterexample :
    ((arena_alloc (arena_init 4096 1024) memAA 1024).andThen
      (fun _ a m => arena_alloc a m 0)).arena? = some arenaAtEnd ∧
    OffsetInv arenaAtEnd ∧ 0 < arenaAtEnd.buffer_len ∧
    arenaAtEnd.buffer + arenaAtEnd.prev_offset = 5120 ∧
    arenaAtEnd.prev_offset + 0 ≤ arenaAtEnd.buffer_len ∧
    (arena_resize_align arenaAtEnd memAA 5120 1 0 16).ptr? = none ∧
    arena_resize_align arenaAtEnd memAA 5120 1 0 16 = Outcome.assertFail := by
  refine ⟨by decide, by decide, by decide, by decide, by decide, by decide, ?_⟩
  rfl

/-- C8 (amended): for every arena over a valid buffer with
`prev_offset < buffer_len` (so that `old_ptr = buffer + prev_offset` lies inside the
buffer), every `old_size > 0`, every power-of-two alignment and every `new_size`
with `prev_offset + new_size ≤ buffer_len`, growing or shrinking,
`arena_resize_align` returns exactly `old_ptr`, leaves `buffer`, `buffer_len` and
`prev_offset` unchanged and sets `curr_offset` to `prev_offset + new_size`. -/
theorem C8_inplace_resize_identity (a : Arena) (m : Mem) (old_size new_size k : Nat)
    (hk : k < 64) (hv : ValidBuffer a) (hin : a.prev_offset < a.buffer_len)
    (hold : 0 < old_size) (hnew : a.prev_offset + new_size ≤ a.buffer_len) :
    ∃ m1, arena_resize_align a m (a.buffer + a.prev_offset) old_size new_size (2 ^ k) =
      Outcome.ret (a.buffer + a.prev_offset)
        { a with curr_offset := a.prev_offset + new_size } m1 := by
  rw [resize_inplace_branch a m old_size new_size k hk hv hin hold]
  obtain ⟨hb, hend⟩ := hv
  have h5 : wadd a.prev_offset new_size = a.prev_offset + new_size := by
    simp only [wadd, WORD] at *
    omega
  have h6 : ¬ (a.prev_offset + new_size > a.buffer_len) := by omega
  rw [h5, if_neg h6]
  by_cases hg : new_size > old_size
  · rw [if_pos hg]
    have hne : wadd a.buffer (a.prev_offset + new_size) ≠ 0 := by
      simp only [wadd, WORD] at *
      omega
    obtain ⟨m1, hm1⟩ := memset_of_ne_null m _ 0 (wsub new_size old_size) hne
    exact ⟨m1, by rw [hm1]⟩
  · rw [if_neg hg]
    exact ⟨m, rfl⟩

/-- Witness for C8: the three runs of `main` (`linear.c:129-149`) on a 1024-byte
buffer at address 4096.  `alloc(80)` then `resize 80 -> 160` returns the same
pointer with `curr_offset = 160`; a further `resize 160 -> 144` returns it again
with `curr_offset = 144`; `alloc(81)` then `resize 81 -> 80` returns the same
pointer with `curr_offset = 80`.  The first resize is an instance of the theorem. -/
theorem C8_inplace_resize_identity_witness :
    (arena_alloc (arena_init 4096 1024) memAA 80).ptr? = some 4096 ∧
    ((arena_alloc (arena_init 4096 1024) memAA 80).andThen
      (fun p a m => arena_resize a m p 80 160)).ptr? = some 4096 ∧
    ((arena_alloc (arena_init 4096 1024) memAA 80).andThen
      (fun p a m => arena_resize a m p 80 160)).arena? =
        some { buffer := 4096, buffer_len := 1024, prev_offset := 0, curr_offset := 160 } ∧
    (((arena_alloc (arena_init 4096 1024) memAA 80).andThen
      (fun p a m => arena_resize a m p 80 160)).andThen
      (fun p a m => arena_resize a m p 160 144)).ptr? = some 4096 ∧
    (((arena_alloc (arena_init 4096 1024) memAA 80).andThen
      (fun p a m => arena_resize a m p 80 160)).andThen
      (fun p a m => arena_resize a m p 160 144)).arena? =
        some { buffer := 4096, buffer_len := 1024, prev_offset := 0, curr_offset := 144 } ∧
    (arena_alloc (arena_free_all (arena_init 4096 1024)) memAA 81).ptr? = some 4096 ∧
    ((arena_alloc (arena_free_all (arena_init 4096 1024)) memAA 81).andThen
      (fun p a m => arena_resize a m p 81 80)).ptr? = some 4096 ∧
    ((arena_alloc (arena_free_all (arena_init 4096 1024)) memAA 81).andThen
      (fun p a m => arena_resize a m p 81 80)).arena? =
        some { buffer := 4096, buffer_len := 1024, prev_offset := 0, curr_offset := 80 } ∧
    ∃ m1, arena_resize_align arenaAfter80 memAfter80
        (arenaAfter80.buffer + arenaAfter80.prev_offset) 80 160 (2 ^ 4) =
      Outcome.ret (arenaAfter80.buffer + arenaAfter80.prev_offset)
        { arenaAfter80 with curr_offset := arenaAfter80.prev_offset + 160 } m1 :=
  ⟨by decide, by decide, by decide, by decide, by decide, by decide, by decide, by decide,
    C8_inplace_resize_identity arenaAfter80 memAfter80 80 160 4
      (by decide) (by decide) (by decide) (by decide) (by decide)⟩

/-- C9 (counterexample to the claim as stated): in the full arena whose latest
allocation starts at offset 1024, the invariant holds, `old_ptr = buffer +
prev_offset = 5120`, `old_size = 1 > 0` and `prev_offset + new_size = 1025 >
buffer_len`; the call does not return the failure result: `old_ptr` is one past
the last byte of the buffer and the call ends in `assert(0)`. -/
theorem C9_one_past_end_counterexample :
    OffsetInv arenaAtEnd ∧
    arenaAtEnd.buffer + arenaAtEnd.prev_offset = 5120 ∧
    arenaAtEnd.buffer_len < arenaAtEnd.prev_offset + 1 ∧
    (arena_resize_align arenaAtEnd memAA 5120 1 1 16).ptr? = none ∧
    (arena_resize_align arenaAtEnd memAA 5120 1 1 16).isAssertFail = true := by
  decide

/-- C9 (amended): for every arena over a valid buffer with
`prev_offset < buffer_len` (so that `old_ptr = buffer + prev_offset` lies inside the
buffer), every `old_size > 0`, every power-of-two alignment and every `new_size`
with `buffer_len < prev_offset + new_size < 2^64`, `arena_resize_align` returns
`NULL` and leaves the arena header and all of memory exactly as they were. -/
theorem C9_inplace_resize_out_of_memory (a : Arena) (m : Mem) (old_size new_size k : Nat)
    (hk : k < 64) (hv : ValidBuffer a) (hin : a.prev_offset < a.buffer_len)
    (hold : 0 < old_size) (hbig : a.buffer_len < a.prev_offset + new_size)
    (hword : a.prev_offset + new_size < WORD) :
    arena_resize_align a m (a.buffer + a.prev_offset) old_size new_size (2 ^ k) =
      Outcome.ret 0 a m := by
  rw [resize_inplace_branch a m old_size new_size k hk hv hin hold]
  have h5 : wadd a.prev_offset new_size = a.prev_offset + new_size := by
    simp only [wadd, WORD] at *
    omega
  rw [h5, if_pos hbig]

/-- Witness for C9: the run of `main` (`linear.c:160-169`) on a 1024-byte buffer at
address 4096.  `alloc(1025)` fails, `alloc(1024)` succeeds at offset 0, and
`resize(ptr, 1024, 1025)` returns `NULL` with the arena and memory unchanged. -/
theorem C9_inplace_resize_out_of_memory_witness :
    (arena_alloc (arena_init 4096 1024) memAA 1025).ptr? = some 0 ∧
    (arena_alloc (arena_init 4096 1024) memAA 1024).ptr? = some 4096 ∧
    (arena_alloc (arena_init 4096 1024) memAA 1024).arena? = some arenaFilled ∧
    arena_resize arenaFilled memAA 4096 1024 1025 = Outcome.ret 0 arenaFilled memAA :=
  ⟨by decide, by decide, by decide,
    C9_inplace_resize_out_of_memory arenaFilled memAA 1024 1025 4
      (by decide) (by decide) (by decide) (by decide) (by decide) (by decide)⟩

/-- C10: for every arena over a valid buffer that satisfies the offset invariant and
every previously issued, non-latest region (`old_ptr = buffer + o` with
`o + old_size ≤ prev_offset`, `old_size > 0`), if the fresh
`arena_alloc_align(new_size, 2^k)` returns a non-null pointer `p`, then
`arena_resize_align` returns that `p` with the arena of the fresh allocation,
`p ≠ old_ptr`, the first `min(old_size, new_size)` bytes at `p` equal the bytes the
old region held before the call, and all `old_size` bytes of the old region are
unchanged. -/
theorem C10_copy_on_stale_resize (a : Arena) (m : Mem) (o old_size new_size k p : Nat)
    (a1 : Arena) (m1 : Mem) (hk : k < 64) (hv : ValidBuffer a) (hinv : OffsetInv a)
    (hold : 0 < old_size) (hreg : o + old_size ≤ a.prev_offset)
    (hfit : arena_alloc_align a m new_size (2 ^ k) = Outcome.ret p a1 m1) (hp : p ≠ 0) :
    ∃ m2, arena_resize_align a m (a.buffer + o) old_size new_size (2 ^ k) =
        Outcome.ret p a1 m2 ∧
      p ≠ a.buffer + o ∧
      (∀ i, i < min old_size new_size → m2 (p + i) = m (a.buffer + o + i)) ∧
      (∀ i, i < old_size → m2 (a.buffer + o + i) = m (a.buffer + o + i)) := by
  obtain ⟨hb, hend⟩ := hv
  obtain ⟨hpc, hcl⟩ := hinv
  obtain ⟨-, -, hlo, -, -, -, hms⟩ := alloc_ret_inv a m new_size k p a1 m1 hk hfit hp
  have hcur : wadd a.buffer a.curr_offset = a.buffer + a.curr_offset := by
    simp only [wadd, WORD] at *
    omega
  rw [hcur] at hlo
  have h1 : ¬ (a.buffer + o = 0 ∨ old_size = 0) := by omega
  have h2 : wadd a.buffer a.buffer_len = a.buffer + a.buffer_len := by
    simp only [wadd, WORD] at *
    omega
  have h3 : a.buffer ≤ a.buffer + o ∧ a.buffer + o < wadd a.buffer a.buffer_len := by
    rw [h2]
    omega
  have h4 : ¬ (wadd a.buffer a.prev_offset = a.buffer + o) := by
    simp only [wadd, WORD] at *
    omega
  have hsrc : a.buffer + o ≠ 0 := by omega
  obtain ⟨m2, hm2⟩ := memmove_of_ne_null m1 p (a.buffer + o)
    (if old_size < new_size then old_size else new_size) hp hsrc
  have hb1 := memset_some_spec m p 0 new_size m1 hms
  have hb2 := memmove_some_spec m1 p (a.buffer + o) _ m2 hm2
  have hmin : (if old_size < new_size then old_size else new_size) = min old_size new_size := by
    split <;> omega
  rw [hmin] at hb2
  refine ⟨m2, ?_, by omega, ?_, ?_⟩
  · simp only [arena_resize_align, is_power_of_two_pow k hk, if_true, h1, if_false, h3,
      and_self, h4, hfit, hm2]
  · intro i hi
    have hdst : p ≤ p + i ∧ p + i < p + min old_size new_size := by omega
    have hout : ¬ (p ≤ a.buffer + o + (p + i - p) ∧ a.buffer + o + (p + i - p) < p + new_size) := by
      omega
    rw [hb2 (p + i), if_pos hdst, hb1, if_neg hout]
    congr 1
    omega
  · intro i hi
    have hnd : ¬ (p ≤ a.buffer + o + i ∧ a.buffer + o + i < p + min old_size new_size) := by
      omega
    have hout : ¬ (p ≤ a.buffer + o + i ∧ a.buffer + o + i < p + new_size) := by omega
    rw [hb2 (a.buffer + o + i), if_neg hnd, hb1, if_neg hout]

/-- Witness for C10: the last run of `main` (`linear.c:171-179`) on a 1024-byte
buffer at address 4096.  After `alloc(10)` holding `"123456789\0"` and `alloc(1)`,
`resize(first, 10, 8)` returns the new address 4128, whose first 8 bytes are
`"12345678"`, and the 10 bytes at 4096 still hold the string.  The last conjunct is
the theorem applied to the arena of that run and the memory holding the string. -/
theorem C10_copy_on_stale_resize_witness :
    staleResizeRun.ptr? = some 4128 ∧
    staleResizeRun.arena? = some arenaStaleAfter ∧
    (∀ i, i < 8 → staleResizeRun.byte? (4128 + i) = some (digits.getD i 0)) ∧
    (∀ i, i < 10 → staleResizeRun.byte? (4096 + i) = some (digits.getD i 0)) ∧
    arena_alloc_align arenaStale memString 8 (2 ^ 4) =
      Outcome.ret 4128 arenaStaleAfter memStaleFresh ∧
    ∃ m2, arena_resize_align arenaStale memString (arenaStale.buffer + 0) 10 8 (2 ^ 4) =
        Outcome.ret 4128 arenaStaleAfter m2 ∧
      4128 ≠ arenaStale.buffer + 0 ∧
      (∀ i, i < min 10 8 → m2 (4128 + i) = memString (arenaStale.buffer + 0 + i)) ∧
      (∀ i, i < 10 → m2 (arenaStale.buffer + 0 + i) = memString (arenaStale.buffer + 0 + i)) :=
  ⟨by decide, by decide, by decide, by decide, rfl,
    C10_copy_on_stale_resize arenaStale memString 0 10 8 4 4128 arenaStaleAfter memStaleFresh
      (by decide) (by decide) (by decide) (by decide) (by decide) rfl (by decide)⟩

/-! ## The alignment utilities -/

/-- Bit `k` of `2^k + r` is set when `r < 2^k`. -/
theorem testBit_top (k r : Nat) (hr : r < 2 ^ k) : (2 ^ k + r).testBit k = true := by
  rw [Nat.testBit_two_pow_add_eq, Nat.testBit_lt_two_pow hr]
  rfl

/-- A positive number that is not a power of two shares its top bit with its
predecessor, so `n & (n - 1)` is not zero. -/
theorem and_pred_ne_zero_of_not_pow (n : Nat) (hn : 1 ≤ n) (hnp : ¬ ∃ k, n = 2 ^ k) :
    n &&& (n - 1) ≠ 0 := by
  have hle : 2 ^ n.log2 ≤ n := Nat.log2_self_le (by omega)
  have hlt : n < 2 ^ (n.log2 + 1) := Nat.lt_log2_self
  have hne : n ≠ 2 ^ n.log2 := fun h => hnp ⟨n.log2, h⟩
  rw [Nat.pow_succ] at hlt
  have h1 := testBit_top n.log2 (n - 2 ^ n.log2) (by omega)
  have h2 := testBit_top n.log2 (n - 2 ^ n.log2 - 1) (by omega)
  have e1 : 2 ^ n.log2 + (n - 2 ^ n.log2) = n := by omega
  have e2 : 2 ^ n.log2 + (n - 2 ^ n.log2 - 1) = n - 1 := by omega
  rw [e1] at h1
  rw [e2] at h2
  intro h0
  have hbit : (n &&& (n - 1)).testBit n.log2 = true := by
    rw [Nat.testBit_and, h1, h2]
    rfl
  rw [h0, Nat.zero_testBit] at hbit
  exact Bool.noConfusion hbit

/-- On a word `n ≥ 1` the test of `is_power_of_two` is `n & (n - 1) == 0` without
wrap-around. -/
theorem is_power_of_two_pos (n : Nat) (hn : 1 ≤ n) (hw : n < WORD) :
    is_power_of_two n = ((n &&& (n - 1)) == 0) := by
  have h : wsub n 1 = n - 1 := by
    simp only [wsub, WORD] at *
    omega
  rw [is_power_of_two, h]

/-- A power of two that is a word has an exponent below 64. -/
theorem exponent_lt_of_pow_lt_word (k : Nat) (h : 2 ^ k < WORD) : k < 64 := by
  by_contra hk
  have h2 : (2 : Nat) ^ 64 ≤ 2 ^ k := Nat.pow_le_pow_right (by norm_num) (by omega)
  simp only [WORD] at h
  omega

/-- Two multiples of `A` less than `A` apart are equal: a multiple of `A` in
`[x, x + A)` is below every multiple of `A` that is at least `x`. -/
theorem multiple_le_of_window (A x r r2 : Nat) (hr : r % A = 0) (hhi : r < x + A)
    (h2 : x ≤ r2) (hr2 : r2 % A = 0) : r ≤ r2 := by
  by_contra hlt
  have hd : A ∣ r - r2 :=
    Nat.dvd_sub' (Nat.dvd_of_mod_eq_zero hr) (Nat.dvd_of_mod_eq_zero hr2)
  have hle : A ≤ r - r2 := Nat.le_of_dvd (by omega) hd
  omega

/-- When the rounding stays inside the word, `align_foward` adds the padding
`(2^k - x mod 2^k) mod 2^k` exactly. -/
theorem align_foward_exact (x k : Nat) (hk : k < 64)
    (hno : x + (2 ^ k - x % 2 ^ k) % 2 ^ k < WORD) :
    align_foward x (2 ^ k) = some (x + (2 ^ k - x % 2 ^ k) % 2 ^ k) := by
  have hA := two_pow_lt_word k hk
  have hpos : 0 < 2 ^ k := Nat.pow_pos (by norm_num)
  have hmod : x % 2 ^ k < 2 ^ k := Nat.mod_lt _ hpos
  rw [align_foward_pow x k hk]
  by_cases h : x % 2 ^ k = 0
  · rw [if_pos h, h, Nat.sub_zero, Nat.mod_self, Nat.add_zero]
  · have hpad : (2 ^ k - x % 2 ^ k) % 2 ^ k = 2 ^ k - x % 2 ^ k :=
      Nat.mod_eq_of_lt (by omega)
    rw [hpad] at hno ⊢
    rw [if_neg h]
    congr 1
    simp only [wadd, wsub, WORD] at *
    omega

/-- C19: for every address `addr` and every power-of-two alignment `2^k` (a word)
such that `addr + align - 1` does not overflow the word, `align_foward(addr, align)`
returns the smallest `r` with `r ≥ addr` and `r mod align = 0`; `r = addr` when
`addr mod align = 0` and `r = addr + (align - addr mod align)` otherwise; and
aligning `r` again returns `r`. -/
theorem C19_align_foward_rounds_up (addr k : Nat) (hk : k < 64)
    (hno : addr + 2 ^ k - 1 < WORD) :
    ∃ r, align_foward addr (2 ^ k) = some r ∧
      addr ≤ r ∧ r % 2 ^ k = 0 ∧ (∀ r2, addr ≤ r2 → r2 % 2 ^ k = 0 → r ≤ r2) ∧
      (addr % 2 ^ k = 0 → r = addr) ∧
      (addr % 2 ^ k ≠ 0 → r = addr + (2 ^ k - addr % 2 ^ k)) ∧
      align_foward r (2 ^ k) = some r := by
  have hpos : 0 < 2 ^ k := Nat.pow_pos (by norm_num)
  have hmod : addr % 2 ^ k < 2 ^ k := Nat.mod_lt _ hpos
  have hx : addr < WORD := by omega
  have hpadlt : (2 ^ k - addr % 2 ^ k) % 2 ^ k < 2 ^ k := Nat.mod_lt _ hpos
  have hpad0 : addr % 2 ^ k = 0 → (2 ^ k - addr % 2 ^ k) % 2 ^ k = 0 := by
    intro h
    rw [h, Nat.sub_zero, Nat.mod_self]
  have hpad1 : addr % 2 ^ k ≠ 0 → (2 ^ k - addr % 2 ^ k) % 2 ^ k = 2 ^ k - addr % 2 ^ k := by
    intro h
    exact Nat.mod_eq_of_lt (by omega)
  have hno2 : addr + (2 ^ k - addr % 2 ^ k) % 2 ^ k < WORD := by
    by_cases h : addr % 2 ^ k = 0
    · rw [hpad0 h]
      omega
    · rw [hpad1 h]
      omega
  have hal := align_foward_exact addr k hk hno2
  obtain ⟨al, hal2, -, hdiv, -⟩ := align_foward_spec addr k hk hx
  rw [hal] at hal2
  simp only [Option.some.injEq] at hal2
  rw [← hal2] at hdiv
  refine ⟨addr + (2 ^ k - addr % 2 ^ k) % 2 ^ k, hal, by omega, hdiv, ?_, ?_, ?_, ?_⟩
  · intro r2 h2 hr2
    exact multiple_le_of_window (2 ^ k) addr _ r2 hdiv (by omega) h2 hr2
  · intro h
    rw [hpad0 h]
    rfl
  · intro h
    rw [hpad1 h]
  · rw [align_foward_pow _ k hk, if_pos hdiv]

/-- Witness for C19: `align_foward(4113, 16) = 4128`, the theorem at `addr = 4113`,
`k = 4`. -/
theorem C19_align_foward_rounds_up_witness :
    align_foward 4113 16 = some 4128 ∧ align_foward 4128 16 = some 4128 ∧
    ∃ r, align_foward 4113 (2 ^ 4) = some r ∧
      4113 ≤ r ∧ r % 2 ^ 4 = 0 ∧ (∀ r2, 4113 ≤ r2 → r2 % 2 ^ 4 = 0 → r ≤ r2) ∧
      (4113 % 2 ^ 4 = 0 → r = 4113) ∧
      (4113 % 2 ^ 4 ≠ 0 → r = 4113 + (2 ^ 4 - 4113 % 2 ^ 4)) ∧
      align_foward r (2 ^ 4) = some r :=
  ⟨by decide, by decide, C19_align_foward_rounds_up 4113 4 (by decide) (by decide)⟩

/-- C20: for every machine word `n ≥ 1`, `is_power_of_two(n)` is true exactly when
`n = 2^k` for some `k`; and `is_power_of_two(0)` is true, because `0 - 1` wraps to
the all-ones word and `0 & anything` is `0`. -/
theorem C20_is_power_of_two_characterisation :
    (∀ n, 1 ≤ n → n < WORD → (is_power_of_two n = true ↔ ∃ k, n = 2 ^ k)) ∧
    wsub 0 1 = WORD - 1 ∧ is_power_of_two 0 = true := by
  refine ⟨?_, by decide, by decide⟩
  intro n hn hw
  constructor
  · intro h
    by_contra hnp
    rw [is_power_of_two_pos n hn hw] at h
    exact and_pred_ne_zero_of_not_pow n hn hnp (by simpa using h)
  · rintro ⟨k, rfl⟩
    exact is_power_of_two_pow k (exponent_lt_of_pow_lt_word k hw)

/-- Witness for C20: the characterisation at `n = 4096 = 2^12`, next to the
evaluations on 4096, on 12 (not a power of two) and on 0. -/
theorem C20_is_power_of_two_characterisation_witness :
    is_power_of_two 4096 = true ∧ is_power_of_two 12 = false ∧ is_power_of_two 0 = true ∧
    (is_power_of_two 4096 = true ↔ ∃ k, 4096 = 2 ^ k) :=
  ⟨by decide, by decide, by decide,
    C20_is_power_of_two_characterisation.1 4096 (by decide) (by decide)⟩

/-! ## Resize: foreign pointers and empty old regions -/

/-- C14: for every arena state, every power-of-two alignment, every non-null
`old_ptr` with `old_ptr < buffer` or `old_ptr ≥ buffer + buffer_len` (the
one-past-the-end address included) and every `old_size > 0`, the call of
`arena_resize_align` ends in the failed `assert(0)`: it returns no result, and
the branch it takes contains no store to the arena header and no `memset` or
`memmove`. -/
theorem C14_foreign_pointer_asserts (a : Arena) (m : Mem)
    (old_ptr old_size new_size k : Nat) (hk : k < 64) (hnn : old_ptr ≠ 0)
    (hold : 0 < old_size)
    (hout : old_ptr < a.buffer ∨ a.buffer + a.buffer_len ≤ old_ptr) :
    arena_resize_align a m old_ptr old_size new_size (2 ^ k) = Outcome.assertFail := by
  have h1 : ¬ (old_ptr = 0 ∨ old_size = 0) := by omega
  have h2 : ¬ (a.buffer ≤ old_ptr ∧ old_ptr < wadd a.buffer a.buffer_len) := by
    simp only [wadd, WORD]
    omega
  simp only [arena_resize_align, is_power_of_two_pow k hk, if_true, h1, if_false, h2]

/-- Witness for C14: on the 1024-byte arena at address 4096 the one-past-the-end
pointer 5120 and the pointer 4000 below the buffer both end in the assertion. -/
theorem C14_foreign_pointer_asserts_witness :
    arena_resize_align arenaSixteenUsed memAA 5120 16 32 (2 ^ 4) = Outcome.assertFail ∧
    arena_resize_align arenaSixteenUsed memAA 4000 16 32 (2 ^ 4) = Outcome.assertFail :=
  ⟨C14_foreign_pointer_asserts arenaSixteenUsed memAA 5120 16 32 4
      (by decide) (by decide) (by decide) (by decide),
    C14_foreign_pointer_asserts arenaSixteenUsed memAA 4000 16 32 4
      (by decide) (by decide) (by decide) (by decide)⟩

/-- C15: for every arena state, every `new_size` and every alignment, if `old_ptr`
is null or `old_size` is zero (whatever the other one is), the call of
`arena_resize_align` has exactly the outcome of `arena_alloc_align(new_size,
align)` on the same arena and memory: the same returned pointer, the same final
arena and the same final memory (and the same assertion failure or fault when
there is one). -/
theorem C15_resize_of_nothing_is_alloc (a : Arena) (m : Mem)
    (old_ptr old_size new_size align : Nat) (h : old_ptr = 0 ∨ old_size = 0) :
    arena_resize_align a m old_ptr old_size new_size align =
      arena_alloc_align a m new_size align := by
  cases hp : is_power_of_two align with
  | true => simp only [arena_resize_align, hp, if_true, h]
  | false =>
    simp [arena_resize_align, arena_alloc_align, align_foward, hp]

/-- Witness for C15: a null `old_ptr` with a non-zero `old_size`, and the latest
allocation's own pointer with `old_size = 0`, both behave as `arena_alloc_align`. -/
theorem C15_resize_of_nothing_is_alloc_witness :
    arena_resize_align arenaSixteenUsed memAA 0 16 32 16 =
      arena_alloc_align arenaSixteenUsed memAA 32 16 ∧
    arena_resize_align arenaSixteenUsed memAA 4096 0 32 16 =
      arena_alloc_align arenaSixteenUsed memAA 32 16 ∧
    (arena_resize_align arenaSixteenUsed memAA 4096 0 32 16).ptr? = some 4112 :=
  ⟨C15_resize_of_nothing_is_alloc arenaSixteenUsed memAA 0 16 32 16 (by decide),
    C15_resize_of_nothing_is_alloc arenaSixteenUsed memAA 4096 0 32 16 (by decide),
    by decide⟩

/-! ## Reset and the zero-length arena -/

/-- After `arena_free_all`, an allocation whose alignment padding and size fit in
the buffer succeeds at the first aligned address of the buffer. -/
theorem alloc_after_free_all (a : Arena) (m : Mem) (size k : Nat) (hk : k < 64)
    (hv : ValidBuffer a)
    (hfit : (2 ^ k - a.buffer % 2 ^ k) % 2 ^ k + size ≤ a.buffer_len) :
    ∃ m1, arena_alloc_align (arena_free_all a) m size (2 ^ k) =
      Outcome.ret (a.buffer + (2 ^ k - a.buffer % 2 ^ k) % 2 ^ k)
        { buffer := a.buffer, buffer_len := a.buffer_len,
          prev_offset := (2 ^ k - a.buffer % 2 ^ k) % 2 ^ k,
          curr_offset := (2 ^ k - a.buffer % 2 ^ k) % 2 ^ k + size } m1 := by
  obtain ⟨hb, hend⟩ := hv
  generalize hpad : (2 ^ k - a.buffer % 2 ^ k) % 2 ^ k = pad at hfit ⊢
  have hcur : wadd a.buffer 0 = a.buffer := by
    simp only [wadd, WORD] at *
    omega
  have hal : align_foward a.buffer (2 ^ k) = some (a.buffer + pad) := by
    rw [← hpad]
    apply align_foward_exact a.buffer k hk
    rw [hpad]
    simp only [WORD] at *
    omega
  have hrel : wsub (a.buffer + pad) a.buffer = pad := by
    simp only [wsub, WORD] at *
    omega
  have hsum : wadd pad size = pad + size := by
    simp only [wadd, WORD] at *
    omega
  have hptr : wadd a.buffer pad = a.buffer + pad := by
    simp only [wadd, WORD] at *
    omega
  obtain ⟨m1, hm1⟩ := memset_of_ne_null m (a.buffer + pad) 0 size (by omega)
  refine ⟨m1, ?_⟩
  simp only [arena_alloc_align, arena_free_all, hcur, hal, hrel, hsum, hptr, hfit, if_true,
    hm1]

/-- C12 (counterexample to the claim as stated): the 1024-byte arena at the
unaligned address 4099.  After `arena_free_all` both offsets are zero and
`size = 1024 ≤ buffer_len`, yet `arena_alloc_align(1024, 16)` returns `NULL`: the
13 bytes of padding up to the first multiple of 16 leave only 1011 bytes. -/
theorem C12_unaligned_base_counterexample :
    (arena_free_all arenaOddBase).prev_offset = 0 ∧
    (arena_free_all arenaOddBase).curr_offset = 0 ∧
    1024 ≤ (arena_free_all arenaOddBase).buffer_len ∧
    (arena_alloc_align (arena_free_all arenaOddBase) memAA 1024 16).ptr? = some 0 ∧
    arena_alloc_align (arena_free_all arenaOddBase) memAA 1024 16 =
      Outcome.ret 0 (arena_free_all arenaOddBase) memAA := by
  refine ⟨by decide, by decide, by decide, by decide, ?_⟩
  rfl

/-- C12 (amended): for every arena state `arena_free_all` sets `prev_offset` and
`curr_offset` to zero and leaves `buffer` and `buffer_len` alone; and over a valid
buffer, for every power-of-two alignment `2^k` and every size such that the padding
from `buffer` up to the next multiple of the alignment plus the size is at most
`buffer_len`, the next `arena_alloc_align` succeeds: it returns the non-null first
aligned address of the buffer.  In particular, when `buffer` is a multiple of the
alignment every `size ≤ buffer_len` succeeds at offset 0. -/
theorem C12_reset_then_alloc :
    (∀ a : Arena, (arena_free_all a).prev_offset = 0 ∧ (arena_free_all a).curr_offset = 0 ∧
      (arena_free_all a).buffer = a.buffer ∧ (arena_free_all a).buffer_len = a.buffer_len) ∧
    (∀ (a : Arena) (m : Mem) (size k : Nat), k < 64 → ValidBuffer a →
      (2 ^ k - a.buffer % 2 ^ k) % 2 ^ k + size ≤ a.buffer_len →
      a.buffer + (2 ^ k - a.buffer % 2 ^ k) % 2 ^ k ≠ 0 ∧
      ∃ m1, arena_alloc_align (arena_free_all a) m size (2 ^ k) =
        Outcome.ret (a.buffer + (2 ^ k - a.buffer % 2 ^ k) % 2 ^ k)
          { buffer := a.buffer, buffer_len := a.buffer_len,
            prev_offset := (2 ^ k - a.buffer % 2 ^ k) % 2 ^ k,
            curr_offset := (2 ^ k - a.buffer % 2 ^ k) % 2 ^ k + size } m1) ∧
    (∀ (a : Arena) (m : Mem) (size k : Nat), k < 64 → ValidBuffer a →
      a.buffer % 2 ^ k = 0 → size ≤ a.buffer_len →
      ∃ m1, arena_alloc_align (arena_free_all a) m size (2 ^ k) =
        Outcome.ret a.buffer
          { buffer := a.buffer, buffer_len := a.buffer_len,
            prev_offset := 0, curr_offset := size } m1) := by
  refine ⟨fun a => ⟨rfl, rfl, rfl, rfl⟩, ?_, ?_⟩
  · intro a m size k hk hv hfit
    refine ⟨?_, alloc_after_free_all a m size k hk hv hfit⟩
    have hb := hv.1
    omega
  · intro a m size k hk hv hal hsz
    have hpad : (2 ^ k - a.buffer % 2 ^ k) % 2 ^ k = 0 := by
      rw [hal, Nat.sub_zero, Nat.mod_self]
    have h := alloc_after_free_all a m size k hk hv (by rw [hpad]; omega)
    rw [hpad] at h
    simpa using h

/-- Witness for C12: the arena of `main` (base 4096, a multiple of 16) is reset
after an 80-byte allocation and a request for all 1024 bytes then succeeds at
offset 0. -/
theorem C12_reset_then_alloc_witness :
    (arena_free_all arenaAfter80).prev_offset = 0 ∧
    (arena_free_all arenaAfter80).curr_offset = 0 ∧
    (arena_alloc_align (arena_free_all arenaAfter80) memAA 1024 16).ptr? = some 4096 ∧
    ∃ m1, arena_alloc_align (arena_free_all arenaAfter80) memAA 1024 (2 ^ 4) =
      Outcome.ret arenaAfter80.buffer
        { buffer := arenaAfter80.buffer, buffer_len := arenaAfter80.buffer_len,
          prev_offset := 0, curr_offset := 1024 } m1 :=
  ⟨by decide, by decide, by decide,
    C12_reset_then_alloc.2.2 arenaAfter80 memAA 1024 4
      (by decide) (by decide) (by decide) (by decide)⟩

/-- C16 (counterexample to the claim as stated): on the zero-length arena
`arena_init(4096, 0)` a request of `size = 0` with alignment 16 passes the test
`rel_offset + size <= buffer_len` (`0 + 0 ≤ 0`) and returns the non-null pointer
4096. -/
theorem C16_zero_size_counterexample :
    (arena_init 4096 0).buffer_len = 0 ∧
    (arena_alloc_align (arena_init 4096 0) memAA 0 16).ptr? = some 4096 ∧
    arena_alloc_align (arena_init 4096 0) memAA 0 16 =
      Outcome.ret 4096 (arena_init 4096 0) memAA := by
  refine ⟨by decide, by decide, ?_⟩
  rfl

/-- C16 (amended): after `arena_init(buffer, 0)` with any buffer address (null or
not, aligned or not), `arena_alloc_align(size, 2^k)` returns `NULL` for every
`size ≥ 1` with `size + align ≤ 2^64` and every power-of-two alignment, and it
leaves the arena and memory unchanged, so the same holds for every later call. -/
theorem C16_zero_length_arena_fails (buffer size k : Nat) (m : Mem) (hk : k < 64)
    (hpos : 1 ≤ size) (hno : size + 2 ^ k ≤ WORD) :
    arena_alloc_align (arena_init buffer 0) m size (2 ^ k) =
      Outcome.ret 0 (arena_init buffer 0) m := by
  obtain ⟨al, hlt, -, hrange, heq⟩ := alloc_pow_cases (arena_init buffer 0) m size k hk
  have hno2 : ¬ (wadd (wsub al (arena_init buffer 0).buffer) size ≤
      (arena_init buffer 0).buffer_len) := by
    simp only [wadd, wsub, WORD, arena_init] at *
    omega
  rw [heq, if_neg hno2]

/-- Witness for C16: on zero-length arenas at the null address, at 4096 and at the
unaligned 4099, a one-byte request returns `NULL` and changes nothing. -/
theorem C16_zero_length_arena_fails_witness :
    arena_alloc_align (arena_init 0 0) memAA 1 (2 ^ 4) = Outcome.ret 0 (arena_init 0 0) memAA ∧
    arena_alloc_align (arena_init 4096 0) memAA 1 (2 ^ 4) =
      Outcome.ret 0 (arena_init 4096 0) memAA ∧
    arena_alloc_align (arena_init 4099 0) memAA 1 (2 ^ 4) =
      Outcome.ret 0 (arena_init 4099 0) memAA :=
  ⟨C16_zero_length_arena_fails 0 1 4 memAA (by decide) (by decide) (by decide),
    C16_zero_length_arena_fails 4096 1 4 memAA (by decide) (by decide) (by decide),
    C16_zero_length_arena_fails 4099 1 4 memAA (by decide) (by decide) (by decide)⟩

/-! ## Behaviour when the offset sums do not wrap -/

/-- When `curr_offset + align + size` is a word, a successful allocation starts at
or after the old `curr_offset`, less than one alignment unit after it, and the new
`curr_offset` is not below the old one. -/
theorem alloc_monotone_of_no_wrap (a : Arena) (m : Mem) (size k p : Nat) (a1 : Arena)
    (m1 : Mem) (hk : k < 64) (hv : ValidBuffer a) (hinv : OffsetInv a)
    (hnw : a.curr_offset + 2 ^ k + size ≤ WORD)
    (h : arena_alloc_align a m size (2 ^ k) = Outcome.ret p a1 m1) (hp : p ≠ 0) :
    a1.prev_offset = p - a.buffer ∧ a.curr_offset ≤ a1.prev_offset ∧
      a1.prev_offset - a.curr_offset < 2 ^ k ∧ a1.curr_offset = a1.prev_offset + size ∧
      a.curr_offset ≤ a1.curr_offset := by
  obtain ⟨hlo, hhi, hprev, hcurr, -, -, -⟩ :=
    alloc_ret_exact a m size k p a1 m1 hk hv hinv h hp
  have hsum : (p - a.buffer + size) % WORD = p - a.buffer + size := by
    simp only [WORD] at *
    omega
  rw [hsum] at hcurr
  refine ⟨hprev, by omega, by omega, by omega, by omega⟩

/-- Adding the padding `(A - s mod A) mod A` to `s` gives a multiple of `A`. -/
theorem add_pad_mod (s A : Nat) (hA : 0 < A) : (s + (A - s % A) % A) % A = 0 := by
  have hd := Nat.div_add_mod s A
  have hmod : s % A < A := Nat.mod_lt _ hA
  by_cases h : s % A = 0
  · rw [h, Nat.sub_zero, Nat.mod_self, Nat.add_zero]
    exact h
  · have hpad : (A - s % A) % A = A - s % A := Nat.mod_eq_of_lt (by omega)
    have he : s + (A - s % A) = A * (s / A + 1) := by
      rw [Nat.mul_add, Nat.mul_one]
      omega
    rw [hpad, he]
    exact Nat.mul_mod_right _ _

/-- The size rounded up to a multiple of `A`, `ceil(s / A) * A`, is the size plus
its padding. -/
theorem round_up_eq (s A : Nat) (hA : 0 < A) :
    (s + A - 1) / A * A = s + (A - s % A) % A := by
  have hpadlt : (A - s % A) % A < A := Nat.mod_lt _ hA
  obtain ⟨c, hc⟩ := Nat.dvd_of_mod_eq_zero (add_pad_mod s A hA)
  have hdiv : (s + A - 1) / A = c := by
    apply Nat.div_eq_of_lt_le
    · rw [Nat.mul_comm, ← hc]
      omega
    · rw [Nat.succ_mul, Nat.mul_comm, ← hc]
      omega
  rw [hdiv, Nat.mul_comm, ← hc]

/-- When the first region ends inside the address space (`p1 + s1 < 2^64`), two
consecutive successful allocations with the same alignment are exactly `s1` rounded
up to a multiple of the alignment apart. -/
theorem alloc_spacing_of_no_wrap (a : Arena) (m : Mem) (s1 s2 k p1 p2 : Nat)
    (a1 a2 : Arena) (m1 m2 : Mem) (hk : k < 64)
    (h1 : arena_alloc_align a m s1 (2 ^ k) = Outcome.ret p1 a1 m1) (hp1 : p1 ≠ 0)
    (h2 : arena_alloc_align a1 m1 s2 (2 ^ k) = Outcome.ret p2 a2 m2) (hp2 : p2 ≠ 0)
    (hno : p1 + s1 < WORD) :
    p2 = p1 + (s1 + 2 ^ k - 1) / 2 ^ k * 2 ^ k := by
  have hpos : 0 < 2 ^ k := Nat.pow_pos (by norm_num)
  obtain ⟨hlt1, hmod1, -, -, -, ha1, -⟩ := alloc_ret_inv a m s1 k p1 a1 m1 hk h1 hp1
  obtain ⟨-, hmod2, hlo2, hhi2, -, -, -⟩ := alloc_ret_inv a1 m1 s2 k p2 a2 m2 hk h2 hp2
  have hcur : wadd a1.buffer a1.curr_offset = p1 + s1 := by
    rw [ha1]
    simp only [wadd, wsub, WORD] at *
    omega
  rw [hcur] at hlo2 hhi2
  rw [round_up_eq s1 (2 ^ k) hpos]
  have hpadlt : (2 ^ k - s1 % 2 ^ k) % 2 ^ k < 2 ^ k := Nat.mod_lt _ hpos
  have hT : (p1 + (s1 + (2 ^ k - s1 % 2 ^ k) % 2 ^ k)) % 2 ^ k = 0 :=
    Nat.mod_eq_zero_of_dvd (Nat.dvd_add (Nat.dvd_of_mod_eq_zero hmod1)
      (Nat.dvd_of_mod_eq_zero (add_pad_mod s1 (2 ^ k) hpos)))
  have hle1 := multiple_le_of_window (2 ^ k) (p1 + s1) p2
    (p1 + (s1 + (2 ^ k - s1 % 2 ^ k) % 2 ^ k)) hmod2 hhi2 (by omega) hT
  have hle2 := multiple_le_of_window (2 ^ k) (p1 + s1)
    (p1 + (s1 + (2 ^ k - s1 % 2 ^ k) % 2 ^ k)) p2 hT (by omega) hlo2 hmod2
  omega

/-- An alignment that fails the test of `is_power_of_two` ends both
`arena_alloc_align` and `arena_resize_align` in the failed assertion. -/
theorem assert_of_not_power_of_two (a : Arena) (m : Mem)
    (old_ptr old_size size align : Nat) (h : is_power_of_two align = false) :
    arena_alloc_align a m size align = Outcome.assertFail ∧
      arena_resize_align a m old_ptr old_size size align = Outcome.assertFail := by
  constructor
  · simp [arena_alloc_align, align_foward, h]
  · simp [arena_resize_align, h]

/-! ## Evaluations of the code where it departs from the claims -/

/-- C11 (evaluation of the code): in the 64-byte arena at address 4096 with 16
bytes in use and every byte `0xAA`, the 16-byte region at `old_ptr = 4104` (offsets
8..23) is inside the buffer, is not the latest allocation and extends past
`curr_offset = 16`.  Resizing it to 16 bytes takes the copy path: the fresh
allocation succeeds at 4112 and zero-fills offsets 16..31, which include the last 8
bytes of the old region, before `memmove` reads them.  The first 8 bytes of the
returned region are `0xAA`, the next 8 are `0`, although all 16 bytes of the old
region held `0xAA` immediately before the call. -/
theorem C11_overlapping_copy_reads_zeroed_bytes :
    arenaGrow.buffer ≤ 4104 ∧ 4104 < arenaGrow.buffer + arenaGrow.buffer_len ∧
    4104 ≠ arenaGrow.buffer + arenaGrow.prev_offset ∧
    (arena_alloc_align arenaGrow memAA 16 16).ptr? = some 4112 ∧
    (arena_resize_align arenaGrow memAA 4104 16 16 16).ptr? = some 4112 ∧
    (∀ i, i < 16 → memAA (4104 + i) = 170) ∧
    (∀ i, i < 16 → (arena_resize_align arenaGrow memAA 4104 16 16 16).byte? (4112 + i) =
      some (if i < 8 then 170 else 0)) := by
  decide

/-- C13 (evaluation of the code): `is_power_of_two(0)` is true, so an alignment of 0
passes both assertions.  `arena_alloc_align(8, 0)` returns `NULL` as an ordinary
failure, and `arena_resize_align` of the latest allocation with `align = 0` returns
the old pointer and moves `curr_offset` from 16 to 8: neither call ends in the
assertion failure. -/
theorem C13_zero_alignment_passes_assert :
    is_power_of_two 0 = true ∧
    align_foward 4112 0 = some 0 ∧
    (arena_alloc_align arenaSixteenUsed memAA 8 0).isAssertFail = false ∧
    (arena_alloc_align arenaSixteenUsed memAA 8 0).ptr? = some 0 ∧
    (arena_resize_align arenaGrow memAA 4096 16 8 0).isAssertFail = false ∧
    (arena_resize_align arenaGrow memAA 4096 16 8 0).ptr? = some 4096 ∧
    (arena_resize_align arenaGrow memAA 4096 16 8 0).arena? =
      some { buffer := 4096, buffer_len := 64, prev_offset := 0, curr_offset := 8 } := by
  decide

/-- C17 (evaluation of the code): from the arena with `prev_offset = 64` and
`curr_offset = 100`, which satisfies the offset invariant, an allocation of
`2^64 - 112` bytes is accepted at offset 112 and leaves `curr_offset = 0`; and an
in-place resize of the latest allocation to `new_size = 2^64 - 32 ≥ curr_offset -
prev_offset` returns the old pointer and leaves `curr_offset = 32`.  Both calls
succeed and lower `curr_offset` below its old value 100. -/
theorem C17_curr_offset_decreases_on_wrap :
    OffsetInv arenaBumped ∧ ValidBuffer arenaBumped ∧
    (arena_alloc_align arenaBumped memAA 18446744073709551504 16).ptr? = some 4208 ∧
    (arena_alloc_align arenaBumped memAA 18446744073709551504 16).arena? =
      some { buffer := 4096, buffer_len := 1024, prev_offset := 112, curr_offset := 0 } ∧
    arenaBumped.curr_offset - arenaBumped.prev_offset ≤ 18446744073709551584 ∧
    (arena_resize_align arenaBumped memAA 4160 36 18446744073709551584 16).ptr? = some 4160 ∧
    (arena_resize_align arenaBumped memAA 4160 36 18446744073709551584 16).arena? =
      some { buffer := 4096, buffer_len := 1024, prev_offset := 64, curr_offset := 32 } := by
  decide

/-- An in-place resize with `old_size ≥ new_size` calls no `memset`.  With
`new_size = 2^64 - 8` at `prev_offset = 16` the sum `prev_offset + new_size` wraps
to 8: the call returns the old pointer, writes nothing, and leaves `prev_offset =
16 > curr_offset = 8`.  With `new_size = 2^64 - 32` at `prev_offset = 64` it lowers
`curr_offset` from 100 to 32. -/
theorem inplace_resize_wrap_returns_without_memset :
    arena_resize_align arenaTwoBlocks memAA 4112 18446744073709551608 18446744073709551608 16 =
      Outcome.ret 4112
        { buffer := 4096, buffer_len := 1024, prev_offset := 16, curr_offset := 8 } memAA ∧
    arena_resize_align arenaBumped memAA 4160 18446744073709551584 18446744073709551584 16 =
      Outcome.ret 4160
        { buffer := 4096, buffer_len := 1024, prev_offset := 64, curr_offset := 32 } memAA :=
  ⟨rfl, rfl⟩

/-! ## Spacing of consecutive allocations -/

/-- C18: for every arena state, every power-of-two alignment `A = 2^k` and all
sizes `s1`, `s2`, if `arena_alloc_align(s1, A)` returns the non-null `p1` and the
immediately following `arena_alloc_align(s2, A)` returns the non-null `p2`, then
`p2 - p1`, computed in `uintptr_t` as in the check of `main`, is `ceil(s1 / A) * A`
as a word; and when the first region consists of addresses of the machine
(`p1 + s1 ≤ 2^64`, as in every call that returns), `p1 ≤ p2` and `p2 - p1` is
exactly `ceil(s1 / A) * A`. -/
theorem C18_consecutive_alloc_spacing (a : Arena) (m : Mem) (s1 s2 k p1 p2 : Nat)
    (a1 a2 : Arena) (m1 m2 : Mem) (hk : k < 64)
    (h1 : arena_alloc_align a m s1 (2 ^ k) = Outcome.ret p1 a1 m1) (hp1 : p1 ≠ 0)
    (h2 : arena_alloc_align a1 m1 s2 (2 ^ k) = Outcome.ret p2 a2 m2) (hp2 : p2 ≠ 0) :
    wsub p2 p1 = ((s1 + 2 ^ k - 1) / 2 ^ k * 2 ^ k) % WORD ∧
      (p1 + s1 ≤ WORD → p1 ≤ p2 ∧ p2 - p1 = (s1 + 2 ^ k - 1) / 2 ^ k * 2 ^ k) := by
  have hpos : 0 < 2 ^ k := Nat.pow_pos (by norm_num)
  obtain ⟨hlt1, hmod1, -, -, -, ha1, -⟩ := alloc_ret_inv a m s1 k p1 a1 m1 hk h1 hp1
  obtain ⟨hlt2, hmod2, hlo2, hhi2, -, -, -⟩ := alloc_ret_inv a1 m1 s2 k p2 a2 m2 hk h2 hp2
  have hcur : wadd a1.buffer a1.curr_offset = (p1 + s1) % WORD := by
    rw [ha1]
    simp only [wadd, wsub, WORD] at *
    omega
  rw [hcur] at hlo2 hhi2
  have hcmod : (p1 + s1) % WORD % 2 ^ k = s1 % 2 ^ k := by
    rw [Nat.mod_mod_of_dvd _ (two_pow_dvd_word k hk), Nat.add_mod, hmod1, Nat.zero_add,
      Nat.mod_mod]
  have hT : ((p1 + s1) % WORD + (2 ^ k - s1 % 2 ^ k) % 2 ^ k) % 2 ^ k = 0 := by
    have h := add_pad_mod ((p1 + s1) % WORD) (2 ^ k) hpos
    rw [hcmod] at h
    exact h
  have hpadlt : (2 ^ k - s1 % 2 ^ k) % 2 ^ k < 2 ^ k := Nat.mod_lt _ hpos
  have hle1 := multiple_le_of_window (2 ^ k) ((p1 + s1) % WORD) p2
    ((p1 + s1) % WORD + (2 ^ k - s1 % 2 ^ k) % 2 ^ k) hmod2 hhi2 (by omega) hT
  have hle2 := multiple_le_of_window (2 ^ k) ((p1 + s1) % WORD)
    ((p1 + s1) % WORD + (2 ^ k - s1 % 2 ^ k) % 2 ^ k) p2 hT (by omega) hlo2 hmod2
  have hp2eq : p2 = (p1 + s1) % WORD + (2 ^ k - s1 % 2 ^ k) % 2 ^ k := by omega
  have hsmall : p2 < 2 ^ k → p2 = 0 := by
    intro hlt
    rw [Nat.mod_eq_of_lt hlt] at hmod2
    exact hmod2
  rw [round_up_eq s1 (2 ^ k) hpos]
  generalize (2 ^ k - s1 % 2 ^ k) % 2 ^ k = pad at *
  constructor
  · simp only [wsub, WORD] at *
    omega
  · intro hno
    simp only [WORD] at *
    omega

/-- Witness for C18: the run of `main` (`linear.c:151-158`) on a 1024-byte buffer
at the 16-aligned address 4096.  From the reset arena three allocations of 81
bytes with alignment 16 are at 4096, 4192 and 4288: `p2 - p1 = 96`, and the final
`curr_offset` is 273.  The last conjunct is the theorem applied to the first two. -/
theorem C18_consecutive_alloc_spacing_witness :
    arena_alloc_align (arena_free_all arenaAfter80) memAA 81 (2 ^ 4) =
      Outcome.ret 4096 arenaFirst81 memFirst81 ∧
    arena_alloc_align arenaFirst81 memFirst81 81 (2 ^ 4) =
      Outcome.ret 4192 arenaSecond81 memSecond81 ∧
    4192 - 4096 = 96 ∧ (81 + 2 ^ 4 - 1) / 2 ^ 4 * 2 ^ 4 = 96 ∧
    (arena_alloc arenaSecond81 memSecond81 81).ptr? = some 4288 ∧
    (arena_alloc arenaSecond81 memSecond81 81).arena? =
      some { buffer := 4096, buffer_len := 1024, prev_offset := 192, curr_offset := 273 } ∧
    (wsub 4192 4096 = ((81 + 2 ^ 4 - 1) / 2 ^ 4 * 2 ^ 4) % WORD ∧
      (4096 + 81 ≤ WORD → 4096 ≤ 4192 ∧ 4192 - 4096 = (81 + 2 ^ 4 - 1) / 2 ^ 4 * 2 ^ 4)) :=
  ⟨rfl, rfl, by decide, by decide, by decide, by decide,
    C18_consecutive_alloc_spacing (arena_free_all arenaAfter80) memAA 81 81 4 4096 4192
      arenaFirst81 arenaSecond81 memFirst81 memSecond81 (by decide) rfl (by decide) rfl
      (by decide)⟩

end Linear
